import Mathlib

/-!
# Verification of the cross-region filtered pub/sub relay

A shallow embedding of the broker's routing and filtering core described by
the repository's specification, together with the concrete declarative
configuration found in the CDK stacks
(`src/cdk/lib/globalSubs-region1-stack.ts`, `src/unnamed/part_000`) and the
GraphQL schema (`src/client/schema.graphql`).

The repository itself contains only declarative configuration (AppSync
resolver mapping templates and EventBridge rules); the matching, dispatch
and relay machinery it drives is the managed service.  Components whose code
is not in the repository are modelled from the specification's contracts and
are marked `Modelled from the spec:` in their doc comments.  Definitions
taken from the repository's configuration cite the file and lines they embed.
-/

namespace GlobalPubSub

/-- An attribute map: field name to string value.  A `Channel` value carries
the fields `name` and `message` (schema.graphql lines 7-10); filters and
invalidation payloads are evaluated against such maps. -/
abbrev AttributeMap := List (String × String)

/-- Look a field up in an attribute map. -/
def AttributeMap.get (c : AttributeMap) (f : String) : Option String :=
  c.lookup f

/-- An atomic filter predicate `{fieldName, operator, value}` with
operator `eq` (single comparison value) or `in` (list of values), the two
operators used by the subscription filters in
globalSubs-region1-stack.ts lines 153-179. -/
inductive Pred where
  | eq (fieldName : String) (value : String)
  | isIn (fieldName : String) (values : List String)
deriving DecidableEq, Repr

/-- Modelled from the spec: predicate satisfaction.  `eq` compares string
equality of the candidate's field value; `in` checks membership of the
candidate's field value in the provided value list.  An absent field
satisfies neither operator. -/
def Pred.satisfiedBy (c : AttributeMap) : Pred → Bool
  | .eq f v => c.get f == some v
  | .isIn f vs =>
      match c.get f with
      | some x => vs.contains x
      | none => false

/-- A filter group: a disjunction of atomic predicates (the `filters` array
of one entry of `filterGroup` in the resolver templates). -/
structure FilterGroup where
  filters : List Pred
deriving DecidableEq, Repr

/-- A filter expression: the `filterGroup` array, a conjunction of groups. -/
abbrev FilterExpr := List FilterGroup

/-- Modelled from the spec: a group matches a candidate when its predicate
list is empty (a group with no predicates matches everything) or some
predicate in it is satisfied. -/
def FilterGroup.matchesCand (g : FilterGroup) (c : AttributeMap) : Bool :=
  g.filters.isEmpty || g.filters.any (Pred.satisfiedBy c)

/-- Modelled from the spec: `FilterEngine.matches`.  True iff the filter has
at least one group and every group matches (AND of ORs); a filter with zero
groups is defined to match nothing (explicit deny). -/
def filterMatches (filter : FilterExpr) (c : AttributeMap) : Bool :=
  !filter.isEmpty && filter.all (fun g => g.matchesCand c)

/-- Modelled from the spec: the distinct no-filter-configured sentinel
(`none`) matches every candidate; a configured filter is evaluated by
`filterMatches`. -/
def matchesOpt : Option FilterExpr → AttributeMap → Bool
  | none, _ => true
  | some f, c => filterMatches f c

/-- The five channel names hard-coded into the `subscribe` resolver's
delivery filter (globalSubs-region1-stack.ts line 161). -/
def subscribeChannels : List String := ["cars", "robots", "tech", "music", "media"]

/-- The delivery filter installed by the `subscribe` resolver via
`$extensions.setSubscriptionFilter` (globalSubs-region1-stack.ts lines
153-166): a single group with one `in` predicate on `name` over the fixed
channel list.  The subscriber's `name` argument does not occur in the
template. -/
def setSubscriptionFilter (nameArg : String) : FilterExpr :=
  [⟨[Pred.isIn "name" subscribeChannels]⟩]

/-- The invalidation filter installed by the `subscribe` resolver via
`$extensions.setSubscriptionInvalidationFilter` (globalSubs-region1-stack.ts
lines 167-179): a single `eq` predicate on `name` bound to the subscriber's
own `name` argument. -/
def setSubscriptionInvalidationFilter (nameArg : String) : FilterExpr :=
  [⟨[Pred.eq "name" nameArg]⟩]

/-- The invalidation payload issued by the `unsubscribe` resolver via
`$extensions.invalidateSubscriptions` (globalSubs-region1-stack.ts lines
199-207): `{name: $context.arguments.name}`. -/
def unsubscribePayload (nameArg : String) : AttributeMap :=
  [("name", nameArg)]

/-- A published message.  `name` is the channel name and `message` the
payload, as in the `Channel` GraphQL type; `originRegion` and `dedupToken`
are the provenance fields of the data model (stamped once per original
publish). -/
structure Message where
  name : String
  message : String
  originRegion : String
  dedupToken : String
deriving DecidableEq, Repr

/-- The attribute map a message presents to the filter engine (the
`publishFromBus` payload `{name, message}`). -/
def Message.attrs (m : Message) : AttributeMap :=
  [("name", m.name), ("message", m.message)]

/-- A subscription as held by the registry: delivery filter and
invalidation filter (both installed by the `subscribe` resolver). -/
structure Subscription where
  id : Nat
  filter : FilterExpr
  invalidationFilter : FilterExpr
deriving DecidableEq, Repr

/-- Modelled from the spec: `SubscriptionRegistry.queryMatching` — every
live subscription whose delivery filter matches the message. -/
def queryMatching (reg : List Subscription) (m : Message) : List Subscription :=
  reg.filter (fun s => filterMatches s.filter m.attrs)

/-- Modelled from the spec: `SubscriptionRegistry.queryInvalidationMatches`
— every subscription whose invalidation filter matches the invalidation
arguments. -/
def queryInvalidationMatches (reg : List Subscription) (args : AttributeMap) :
    List Subscription :=
  reg.filter (fun s => filterMatches s.invalidationFilter args)

/-- Modelled from the spec: `Dispatcher.publishLocal` — the subscriptions
whose sink receives the message: exactly the result of `queryMatching`. -/
def publishLocal (reg : List Subscription) (m : Message) : List Subscription :=
  queryMatching reg m

/-- Modelled from the spec: `Dispatcher.invalidate` — first component the
registry after removal of every subscription whose invalidation filter
matches the arguments, second component the subscriptions whose sink
receives a `notifyTerminated` call (one call per list entry). -/
def invalidate (reg : List Subscription) (args : AttributeMap) :
    List Subscription × List Subscription :=
  (reg.filter (fun s => !(filterMatches s.invalidationFilter args)),
   queryInvalidationMatches reg args)

/-- The claim-side reading of the matching contract, stated from the spec's
words alone: every group in the filter has at least one predicate satisfied
by the candidate (plain AND of ORs, with no edge-case policy).  Kept
separate from `filterMatches` so the two can be compared. -/
def andOfOrs (filter : FilterExpr) (c : AttributeMap) : Bool :=
  filter.all (fun g => g.filters.any (Pred.satisfiedBy c))

/-! ## The publish mutation's synchronous response

Embeds the `publish` response mapping template
(globalSubs-region1-stack.ts lines 98-114). -/

/-- The `Channel` GraphQL object returned to the caller. -/
structure Channel where
  name : String
  message : String
deriving DecidableEq, Repr

/-- What the response template sees of the EventBridge `PutEvents`
datasource call: `$ctx.error` (if the invocation itself failed), and the
HTTP status code and body of the response. -/
structure BusResult where
  invocationError : Option String
  statusCode : Nat
  body : String
deriving DecidableEq, Repr

/-- The `publish` response mapping template (globalSubs-region1-stack.ts
lines 98-114): a datasource invocation error raises a field error; a 200
response returns a `Channel` built from the caller's own arguments
(`$ctx.args.name`, `$ctx.args.message`); any other status code appends the
response body as an error. -/
def publishResponse (nameArg messageArg : String) (r : BusResult) :
    Except String Channel :=
  match r.invocationError with
  | some e => .error e
  | none =>
      if r.statusCode == 200 then .ok ⟨nameArg, messageArg⟩
      else .error r.body

/-! ## RegionRelay

Modelled from the spec: the cross-region EventBridge rules in the source
(`toAppSyncRegion2` in src/unnamed/part_000 lines 27-41, `toAppSyncRegion1`
in globalSubs-region1-stack.ts lines 318-332) forward `channel update`
events between regional buses; the loop prevention and de-duplication the
spec describes for `RegionRelay` live in the managed event bus, not in the
repository, and are modelled here from the spec's contracts. -/

/-- The de-duplication key `(originRegion, dedupToken)`. -/
def dedupKey (m : Message) : String × String :=
  (m.originRegion, m.dedupToken)

/-- Per-region relay state: the bounded recent-seen window of dedup keys and
the messages handed to the local Dispatcher, in order. -/
structure RelayState where
  seen : List (String × String)
  dispatched : List Message
deriving DecidableEq, Repr

/-- Modelled from the spec: `RegionRelay.relayOutbound` — a locally
originated message is sent to every configured peer region endpoint.  Each
element is an envelope (target region, message). -/
def relayOutbound (m : Message) (peers : List String) : List (String × Message) :=
  peers.map (fun p => (p, m))

/-- Modelled from the spec: `RegionRelay.receiveInbound` — a message arriving
from a peer is dropped silently when its dedup key is in the recent-seen
window; otherwise it is recorded as seen and handed to the local Dispatcher.
The second component is the list of outbound envelopes this produces: a
received message is never re-relayed to other peers. -/
def receiveInbound (st : RelayState) (m : Message) : RelayState × List (String × Message) :=
  if dedupKey m ∈ st.seen then (st, [])
  else ({ seen := dedupKey m :: st.seen, dispatched := st.dispatched ++ [m] }, [])

/-- Modelled from the spec: handling of a locally originated publish at its
origin region — hand to the local Dispatcher, record as seen, and relay
outbound to every configured peer. -/
def handleLocalPublish (st : RelayState) (m : Message) (peers : List String) :
    RelayState × List (String × Message) :=
  ({ seen := dedupKey m :: st.seen, dispatched := st.dispatched ++ [m] },
   relayOutbound m peers)

/-- A multi-region topology: each region's relay state, keyed by region id. -/
abbrev Network := List (String × RelayState)

/-- Replace one region's relay state in the network. -/
def updateRegion (net : Network) (r : String) (st : RelayState) : Network :=
  net.map (fun p => if p.1 = r then (r, st) else p)

/-- Deliver one in-flight envelope to its target region's `receiveInbound`,
returning the new network and any envelopes the target emits. -/
def deliverEnvelope (net : Network) (e : String × Message) :
    Network × List (String × Message) :=
  match net.lookup e.1 with
  | none => (net, [])
  | some st =>
      let r := receiveInbound st e.2
      (updateRegion net e.1 r.1, r.2)

/-- Run the network until no envelope is in flight (fuel-bounded). -/
def runEnvelopes : Nat → Network → List (String × Message) → Network
  | 0, net, _ => net
  | _, net, [] => net
  | fuel + 1, net, e :: rest =>
      let r := deliverEnvelope net e
      runEnvelopes fuel r.1 (rest ++ r.2)

/-- A single publish originated at `origin` with peer list `peers`,
propagated through the network until quiescent. -/
def globalPublish (fuel : Nat) (net : Network) (origin : String)
    (peers : List String) (m : Message) : Network :=
  match net.lookup origin with
  | none => net
  | some st =>
      let r := handleLocalPublish st m peers
      runEnvelopes fuel (updateRegion net origin r.1) r.2

/-- Iterate `receiveInbound` on the same message, discarding outbound
envelopes (there are none to discard): models repeated arrival of the same
relayed copy. -/
def iterateInbound : Nat → RelayState → Message → RelayState
  | 0, st, _ => st
  | n + 1, st, m => iterateInbound n (receiveInbound st m).1 m

/-! ## Sequential dispatch (ordering) -/

/-- Modelled from the spec: one dispatch step — the message is appended to
the sink log of every subscription whose filter matches; other logs are
untouched. -/
def deliverStep (m : Message) (sinks : List (Subscription × List Message)) :
    List (Subscription × List Message) :=
  sinks.map (fun p => if filterMatches p.1.filter m.attrs then (p.1, p.2 ++ [m]) else p)

/-- Modelled from the spec: the Dispatcher processes the messages it
receives from ChannelBus in order, delivering each to every matching sink. -/
def dispatchSeq (msgs : List Message) (sinks : List (Subscription × List Message)) :
    List (Subscription × List Message) :=
  msgs.foldl (fun st m => deliverStep m st) sinks

/-! ## Sink failure handling -/

/-- Modelled from the spec: a subscription's delivery state.  `sinkOk` is the
external sink's behaviour (whether delivery attempt `i` succeeds);
`attempts` counts delivery attempts made so far; `consecFails` counts
consecutive failures; `removed` is set once the consecutive-failure
threshold is reached, after which the subscription gets no further delivery
attempts. -/
structure SubState where
  sub : Subscription
  sinkOk : Nat → Bool
  attempts : Nat
  consecFails : Nat
  removed : Bool

/-- Modelled from the spec: one delivery attempt for one subscription.  A
removed subscription is skipped; a non-matching message is not attempted; a
successful delivery resets the consecutive-failure count; a failure
increments it and removes the subscription once the threshold is reached. -/
def stepSub (threshold : Nat) (m : Message) (st : SubState) : SubState :=
  if st.removed then st
  else if filterMatches st.sub.filter m.attrs then
    if st.sinkOk st.attempts then
      { st with attempts := st.attempts + 1, consecFails := 0 }
    else
      { st with attempts := st.attempts + 1, consecFails := st.consecFails + 1,
                removed := threshold ≤ st.consecFails + 1 }
  else st

/-- Modelled from the spec: process a message sequence against one
subscription's delivery state. -/
def runSub (threshold : Nat) (st : SubState) (msgs : List Message) : SubState :=
  msgs.foldl (fun s m => stepSub threshold m s) st

/-- Modelled from the spec: process a message sequence against every
subscription; each message is offered to every live subscription. -/
def dispatchWithFailures (threshold : Nat) (msgs : List Message)
    (sts : List SubState) : List SubState :=
  msgs.foldl (fun acc m => acc.map (stepSub threshold m)) sts

/-! ## Concrete scenario data -/

/-- A three-region topology with empty relay state everywhere (the 3-region
verification scenario of the spec). -/
def mesh3 : Network := [("A", ⟨[], []⟩), ("B", ⟨[], []⟩), ("C", ⟨[], []⟩)]

/-- The message published at region A in the 3-region scenario. -/
def meshMsg : Message := ⟨"cars", "p1", "A", "tok1"⟩

/-- Five copies of a matching message, for the threshold-5 sink failure
scenario. -/
def failMsgs : List Message := List.replicate 5 ⟨"cars", "p1", "A", "t1"⟩

/-! ## Theorems -/

/-- Helper: a fold that maps a per-element step over a list of independent
states equals mapping the per-state fold — each state evolves independently
of the others. -/
theorem foldl_map_comm {α β : Type} (f : β → α → α) (msgs : List β) (xs : List α) :
    msgs.foldl (fun acc m => acc.map (fun x => f m x)) xs
      = xs.map (fun x => msgs.foldl (fun a m => f m a) x) := by
  induction msgs generalizing xs with
  | nil => simp
  | cons m ms ih =>
      simp only [List.foldl_cons, ih, List.map_map]
      rfl

/-- C1 counterexample: for a subscription whose filter has zero groups, the
plain AND-of-ORs reading of the matching contract is vacuously true, yet
`publishLocal` does not deliver — the claim's characterisation of `matches`
fails at the zero-group filter that its own edge case designates. -/
theorem zero_group_filter_breaks_and_of_ors :
    ¬ ((⟨0, [], []⟩ : Subscription) ∈
          publishLocal [⟨0, [], []⟩] ⟨"cars", "p1", "A", "t1"⟩
        ↔ andOfOrs [] (Message.attrs ⟨"cars", "p1", "A", "t1"⟩) = true) := by
  decide

/-- C1 (amended): `Dispatcher.publishLocal` delivers a message to a
subscription iff `filterMatches` accepts the subscription's filter on the
message's attributes; and `filterMatches` returns true iff the filter has at
least one group and every group either has an empty predicate list or has at
least one predicate satisfied by the candidate (AND of ORs together with the
edge-case policy: zero groups match nothing, a predicate-free group matches
everything); `eq` compares string equality and `in` checks membership, per
`Pred.satisfiedBy`. -/
theorem publishLocal_delivers_iff_filterMatches (reg : List Subscription)
    (m : Message) (S : Subscription) :
    (S ∈ publishLocal reg m ↔ S ∈ reg ∧ filterMatches S.filter m.attrs = true)
    ∧ (∀ f : FilterExpr, filterMatches f m.attrs = true ↔
        f ≠ [] ∧ ∀ g ∈ f, g.filters = [] ∨ ∃ p ∈ g.filters,
          Pred.satisfiedBy m.attrs p = true) := by
  constructor
  · exact List.mem_filter
  · intro f
    simp [filterMatches, FilterGroup.matchesCand, List.all_eq_true, List.any_eq_true,
      List.isEmpty_iff, List.isEmpty_eq_true]

/-- Witness for C1's theorem: a subscription with the repository's subscribe
filter receives a publish on channel `cars`. -/
theorem publishLocal_delivers_witness :
    (⟨1, setSubscriptionFilter "alice", setSubscriptionInvalidationFilter "alice"⟩ :
        Subscription)
      ∈ publishLocal
          [⟨1, setSubscriptionFilter "alice", setSubscriptionInvalidationFilter "alice"⟩]
          ⟨"cars", "p1", "A", "t1"⟩ :=
  ((publishLocal_delivers_iff_filterMatches _ _ _).1).mpr
    ⟨List.mem_singleton.mpr rfl, by decide⟩

/-- C2: a message received via `receiveInbound` is never passed to
`relayOutbound` (its outbound envelope list is empty in both the
deduplicated and the accepted branch), and in a 3-region full-mesh topology
a single publish at region A is handed to the Dispatcher exactly once in
every region. -/
theorem inbound_never_rerelayed_three_region_once :
    (∀ (st : RelayState) (m : Message), (receiveInbound st m).2 = [])
    ∧ (globalPublish 10 mesh3 "A" ["B", "C"] meshMsg).map
        (fun p => (p.1, p.2.dispatched))
        = [("A", [meshMsg]), ("B", [meshMsg]), ("C", [meshMsg])] := by
  constructor
  · intro st m
    unfold receiveInbound
    split <;> rfl
  · rfl

/-- Helper: a message whose dedup key is in the recent-seen window is
dropped silently by `receiveInbound`. -/
theorem receiveInbound_seen (st : RelayState) (m : Message)
    (h : dedupKey m ∈ st.seen) : receiveInbound st m = (st, []) := by
  simp [receiveInbound, h]

/-- Helper: iterating `receiveInbound` on an already-seen message changes
nothing. -/
theorem iterateInbound_seen (n : Nat) (st : RelayState) (m : Message)
    (h : dedupKey m ∈ st.seen) : iterateInbound n st m = st := by
  induction n with
  | zero => rfl
  | succ k ih => simp [iterateInbound, receiveInbound_seen st m h, ih]

/-- C3: `receiveInbound` is deduplicating-idempotent — delivering the same
`(originRegion, dedupToken)` message once, twice, or more while the pair is
in the recent-seen window hands exactly one copy to the local Dispatcher;
later copies are dropped silently. -/
theorem receiveInbound_dedup_idempotent (st : RelayState) (m : Message) (n : Nat)
    (hfresh : dedupKey m ∉ st.seen) :
    (iterateInbound (n + 1) st m).dispatched = st.dispatched ++ [m] := by
  have h1 : receiveInbound st m
      = ({ seen := dedupKey m :: st.seen, dispatched := st.dispatched ++ [m] }, []) := by
    simp [receiveInbound, hfresh]
  show (iterateInbound n (receiveInbound st m).1 m).dispatched = _
  rw [h1, iterateInbound_seen n _ m (List.mem_cons_self _ _)]

/-- Witness for C3's theorem: two arrivals of the same message at a fresh
region dispatch it once. -/
theorem receiveInbound_dedup_idempotent_witness :
    dedupKey ⟨"cars", "p1", "A", "tok1"⟩ ∉ (⟨[], []⟩ : RelayState).seen
    ∧ (iterateInbound 2 ⟨[], []⟩ ⟨"cars", "p1", "A", "tok1"⟩).dispatched
        = [] ++ [⟨"cars", "p1", "A", "tok1"⟩] :=
  ⟨by decide, receiveInbound_dedup_idempotent ⟨[], []⟩ _ 1 (by decide)⟩

/-- C4: a filter with zero groups matches nothing; the distinct
no-filter-configured sentinel matches every candidate; and a group whose
predicate list is empty matches every candidate — the asymmetry is
preserved exactly by the matching engine. -/
theorem empty_groups_asymmetry (c : AttributeMap) :
    filterMatches [] c = false
    ∧ matchesOpt none c = true
    ∧ (FilterGroup.mk []).matchesCand c = true :=
  ⟨rfl, rfl, rfl⟩

/-- C5: after `invalidate args` where `args` matches subscription S's
invalidation filter and S is registered once, S is absent from every
subsequent `queryMatching` result and S's sink receives exactly one
`notifyTerminated` call. -/
theorem invalidate_removes_and_notifies_once (reg : List Subscription)
    (S : Subscription) (args : AttributeMap)
    (hmatch : filterMatches S.invalidationFilter args = true)
    (hcount : reg.count S = 1) :
    (∀ m : Message, S ∉ queryMatching (invalidate reg args).1 m)
    ∧ (invalidate reg args).2.count S = 1 := by
  constructor
  · intro m hmem
    have h1 : S ∈ (invalidate reg args).1 := (List.mem_filter.mp hmem).1
    have h2 := (List.mem_filter.mp h1).2
    simp [hmatch] at h2
  · calc (invalidate reg args).2.count S
        = reg.count S := List.count_filter hmatch
      _ = 1 := hcount

/-- Witness for C5's theorem: unsubscribing channel `alice` terminates the
lone subscription opened with name `alice` exactly once. -/
theorem invalidate_removes_and_notifies_once_witness :
    (invalidate
        [⟨0, setSubscriptionFilter "alice", setSubscriptionInvalidationFilter "alice"⟩]
        (unsubscribePayload "alice")).2.count
      ⟨0, setSubscriptionFilter "alice", setSubscriptionInvalidationFilter "alice"⟩ = 1 :=
  (invalidate_removes_and_notifies_once _ _ _ (by decide) (by decide)).2

/-- C6: the delivery filter installed by the `subscribe` resolver is the
same constant for every subscriber `name` argument, so whether a message is
delivered does not depend on that argument; and a message whose channel is
outside the fixed five-element list is delivered to no subscriber created
via `subscribe`. -/
theorem subscribe_filter_constant_for_all_names (n₁ n₂ : String) (m : Message) :
    setSubscriptionFilter n₁ = setSubscriptionFilter n₂
    ∧ filterMatches (setSubscriptionFilter n₁) m.attrs
        = filterMatches (setSubscriptionFilter n₂) m.attrs
    ∧ (m.name ∉ subscribeChannels →
        ∀ reg : List Subscription,
          (∀ s ∈ reg, ∃ n, s.filter = setSubscriptionFilter n) →
          publishLocal reg m = []) := by
  refine ⟨rfl, rfl, ?_⟩
  intro hout reg hreg
  refine List.filter_eq_nil_iff.mpr ?_
  intro s hs
  obtain ⟨n, hn⟩ := hreg s hs
  simp [hn, filterMatches, setSubscriptionFilter, FilterGroup.matchesCand,
    Pred.satisfiedBy, Message.attrs, AttributeMap.get, List.lookup, hout]

/-- Witness for C6's theorem: a publish on channel `weather` (outside the
fixed list) is delivered to no subscriber. -/
theorem subscribe_filter_constant_witness :
    "weather" ∉ subscribeChannels
    ∧ publishLocal
        [⟨0, setSubscriptionFilter "alice", setSubscriptionInvalidationFilter "alice"⟩]
        ⟨"weather", "p1", "A", "t1"⟩ = [] := by
  refine ⟨by decide, ?_⟩
  refine (subscribe_filter_constant_for_all_names "alice" "bob"
      ⟨"weather", "p1", "A", "t1"⟩).2.2 (by decide) _ ?_
  intro s hs
  rw [List.mem_singleton] at hs
  exact ⟨"alice", by rw [hs]⟩

/-- C7: a subscription created via `subscribe n` carries the invalidation
filter `eq name n`, and `unsubscribe nameArg` issues the payload
`{name: nameArg}`; the subscription is invalidated iff `nameArg = n`. -/
theorem unsubscribe_invalidates_iff_name_matches (n nameArg : String)
    (reg : List Subscription) (S : Subscription)
    (hS : S.invalidationFilter = setSubscriptionInvalidationFilter n) :
    (filterMatches (setSubscriptionInvalidationFilter n) (unsubscribePayload nameArg) = true
      ↔ nameArg = n)
    ∧ (S ∈ (invalidate reg (unsubscribePayload nameArg)).2 ↔ S ∈ reg ∧ nameArg = n) := by
  have hiff : filterMatches (setSubscriptionInvalidationFilter n)
      (unsubscribePayload nameArg) = true ↔ nameArg = n := by
    simp [filterMatches, setSubscriptionInvalidationFilter, FilterGroup.matchesCand,
      Pred.satisfiedBy, unsubscribePayload, AttributeMap.get, List.lookup]
  refine ⟨hiff, ?_⟩
  rw [show (invalidate reg (unsubscribePayload nameArg)).2
      = reg.filter
          (fun s => filterMatches s.invalidationFilter (unsubscribePayload nameArg))
      from rfl]
  rw [List.mem_filter]
  constructor
  · rintro ⟨hmem, hf⟩
    rw [hS] at hf
    exact ⟨hmem, hiff.mp hf⟩
  · rintro ⟨hmem, hname⟩
    refine ⟨hmem, ?_⟩
    rw [hS]
    exact hiff.mpr hname

/-- Witness for C7's theorem: `unsubscribe "alice"` terminates the
subscription opened with name `alice`. -/
theorem unsubscribe_invalidates_witness :
    (⟨0, setSubscriptionFilter "alice", setSubscriptionInvalidationFilter "alice"⟩ :
        Subscription)
      ∈ (invalidate
          [⟨0, setSubscriptionFilter "alice", setSubscriptionInvalidationFilter "alice"⟩]
          (unsubscribePayload "alice")).2 :=
  ((unsubscribe_invalidates_iff_name_matches "alice" "alice" _ _ rfl).2).mpr
    ⟨List.mem_singleton.mpr rfl, rfl⟩

/-- C8 counterexample: with well-formed arguments, a non-200 response from
the event bus makes `publish` surface the bus response body synchronously as
a field error — an error that is not a validation error on the caller's
input. -/
theorem publish_surfaces_nonvalidation_error :
    publishResponse "cars" "p1" ⟨none, 500, "InternalFailure"⟩
      = Except.error "InternalFailure" := rfl

/-- C8 (amended): on a successful bus ingestion (`$ctx.error` unset, status
200) `publish` returns a `Channel` whose name and message equal the caller's
arguments; every synchronously surfaced error comes from the event-bus
ingestion call itself — the datasource invocation error or the non-200
response body — and from nowhere else (downstream subscriber-delivery and
relay outcomes are not inputs of the synchronous response). -/
theorem publish_sync_success_and_error_sources (nameArg messageArg : String)
    (r : BusResult) :
    (r.invocationError = none → r.statusCode = 200 →
        publishResponse nameArg messageArg r = .ok ⟨nameArg, messageArg⟩)
    ∧ (∀ e, publishResponse nameArg messageArg r = .error e →
        r.invocationError = some e ∨ (r.statusCode ≠ 200 ∧ e = r.body)) := by
  obtain ⟨ie, sc, body⟩ := r
  constructor
  · rintro rfl rfl
    simp [publishResponse]
  · intro e he
    cases ie with
    | some x =>
        left
        simp only [publishResponse] at he
        injection he with h
        rw [h]
    | none =>
        right
        simp only [publishResponse] at he
        by_cases h200 : (sc == 200) = true
        · rw [if_pos h200] at he
          exact absurd he (by simp)
        · rw [if_neg h200] at he
          injection he with h
          refine ⟨?_, h.symm⟩
          intro hsc
          exact h200 (beq_iff_eq.mpr hsc)

/-- Witness for C8's theorem: a successful `publish` of `p1` on channel
`cars` returns `{name: cars, message: p1}`. -/
theorem publish_sync_success_witness :
    publishResponse "cars" "p1" ⟨none, 200, ""⟩ = .ok ⟨"cars", "p1"⟩ :=
  (publish_sync_success_and_error_sources "cars" "p1" ⟨none, 200, ""⟩).1 rfl rfl

/-- Helper: folding the per-message delivery step over one sink pair appends
exactly the matching messages, in order. -/
theorem deliver_pair_log (msgs : List Message) (p : Subscription × List Message) :
    msgs.foldl
        (fun q m => if filterMatches q.1.filter m.attrs then (q.1, q.2 ++ [m]) else q) p
      = (p.1, p.2 ++ msgs.filter (fun m => filterMatches p.1.filter m.attrs)) := by
  induction msgs generalizing p with
  | nil => simp
  | cons m ms ih =>
      simp only [List.foldl_cons, List.filter_cons]
      by_cases h : filterMatches p.1.filter m.attrs = true
      · rw [if_pos h, ih, if_pos h]
        simp
      · rw [if_neg h, ih, if_neg h]

/-- C9: for each subscription, the sink log after the Dispatcher has
processed a message sequence is exactly the matching messages in the order
the Dispatcher received them from ChannelBus — an order-preserving sublist
of the receipt order, with no reordering; nothing relates the logs of
distinct subscriptions. -/
theorem per_subscription_delivery_order (msgs : List Message)
    (sinks : List (Subscription × List Message)) :
    dispatchSeq msgs sinks
      = sinks.map (fun p =>
          (p.1, p.2 ++ msgs.filter (fun m => filterMatches p.1.filter m.attrs)))
    ∧ ∀ S : Subscription,
        (msgs.filter (fun m => filterMatches S.filter m.attrs)).Sublist msgs := by
  constructor
  · have h := foldl_map_comm
      (fun m (q : Subscription × List Message) =>
        if filterMatches q.1.filter m.attrs then (q.1, q.2 ++ [m]) else q) msgs sinks
    calc dispatchSeq msgs sinks
        = msgs.foldl (fun acc m => acc.map
            (fun q => if filterMatches q.1.filter m.attrs then (q.1, q.2 ++ [m]) else q))
            sinks := rfl
      _ = sinks.map (fun q => msgs.foldl
            (fun a m => if filterMatches a.1.filter m.attrs then (a.1, a.2 ++ [m]) else a)
            q) := h
      _ = _ := by
            refine List.map_congr_left ?_
            intro p _
            exact deliver_pair_log msgs p
  · intro S
    exact List.filter_sublist msgs

/-- Helper: a removed subscription receives no further delivery attempts —
its state is unchanged by any further message. -/
theorem runSub_removed (threshold : Nat) (st : SubState) (msgs : List Message)
    (h : st.removed = true) : runSub threshold st msgs = st := by
  induction msgs with
  | nil => rfl
  | cons m ms ih =>
      show runSub threshold (stepSub threshold m st) ms = st
      rw [show stepSub threshold m st = st from by simp [stepSub, h]]
      exact ih

/-- Helper: progress of an always-failing sink — starting below the
threshold, the attempt and consecutive-failure counters climb with each
matching message until the threshold is reached, at which point the
subscription is removed with exactly `threshold` attempts made. -/
theorem runSub_alwaysFail (threshold : Nat) (sub : Subscription)
    (ok : Nat → Bool) (hok : ∀ i, ok i = false) (msgs : List Message) (c : Nat)
    (hc : c < threshold) :
    runSub threshold ⟨sub, ok, c, c, false⟩ msgs
      = (if c + msgs.countP (fun m => filterMatches sub.filter m.attrs) < threshold then
          ⟨sub, ok, c + msgs.countP (fun m => filterMatches sub.filter m.attrs),
                c + msgs.countP (fun m => filterMatches sub.filter m.attrs), false⟩
        else ⟨sub, ok, threshold, threshold, true⟩) := by
  induction msgs generalizing c with
  | nil =>
      simp only [List.countP_nil, Nat.add_zero]
      rw [if_pos hc]
      rfl
  | cons m ms ih =>
      by_cases h : filterMatches sub.filter m.attrs = true
      · have hcnt : (m :: ms).countP (fun m => filterMatches sub.filter m.attrs)
            = ms.countP (fun m => filterMatches sub.filter m.attrs) + 1 := by
          simp [h]
        have hstep : stepSub threshold m ⟨sub, ok, c, c, false⟩
            = ⟨sub, ok, c + 1, c + 1, decide (threshold ≤ c + 1)⟩ := by
          simp [stepSub, h, hok c]
        by_cases hth : threshold ≤ c + 1
        · have heq : threshold = c + 1 := Nat.le_antisymm hth hc
          show runSub threshold (stepSub threshold m ⟨sub, ok, c, c, false⟩) ms = _
          rw [hstep, decide_eq_true hth, runSub_removed threshold _ ms rfl, hcnt,
            if_neg (by omega), heq]
        · have hlt : c + 1 < threshold := by omega
          show runSub threshold (stepSub threshold m ⟨sub, ok, c, c, false⟩) ms = _
          rw [hstep, decide_eq_false hth, ih (c + 1) hlt, hcnt,
            show c + 1 + ms.countP (fun m => filterMatches sub.filter m.attrs)
              = c + (ms.countP (fun m => filterMatches sub.filter m.attrs) + 1)
              from by omega]
      · have hcnt : (m :: ms).countP (fun m => filterMatches sub.filter m.attrs)
            = ms.countP (fun m => filterMatches sub.filter m.attrs) := by
          simp [h]
        have hstep : stepSub threshold m ⟨sub, ok, c, c, false⟩
            = ⟨sub, ok, c, c, false⟩ := by
          simp [stepSub, h]
        show runSub threshold (stepSub threshold m ⟨sub, ok, c, c, false⟩) ms = _
        rw [hstep, ih c hc, hcnt]

/-- C10: a subscription whose sink fails every delivery attempt is removed
once the number of matching messages reaches the threshold of 5; exactly 5
delivery attempts are made and none afterwards; and dispatch is
per-subscriber independent — with the failing subscription present, every
other subscription's state evolves exactly as it does alone, so a failing
sink never blocks delivery to others (and the dispatch result carries no
error back to any publisher). -/
theorem sink_failure_threshold_removal_isolation (msgs : List Message)
    (sub : Subscription) (ok : Nat → Bool) (hok : ∀ i, ok i = false)
    (hcount : 5 ≤ msgs.countP (fun m => filterMatches sub.filter m.attrs))
    (others : List SubState) :
    (runSub 5 ⟨sub, ok, 0, 0, false⟩ msgs).removed = true
    ∧ (runSub 5 ⟨sub, ok, 0, 0, false⟩ msgs).attempts = 5
    ∧ dispatchWithFailures 5 msgs (⟨sub, ok, 0, 0, false⟩ :: others)
        = runSub 5 ⟨sub, ok, 0, 0, false⟩ msgs :: others.map (fun s => runSub 5 s msgs) := by
  have h := runSub_alwaysFail 5 sub ok hok msgs 0 (by omega)
  rw [if_neg (by omega)] at h
  refine ⟨by rw [h], by rw [h], ?_⟩
  exact foldl_map_comm (fun m s => stepSub 5 m s) msgs (⟨sub, ok, 0, 0, false⟩ :: others)

/-- Witness for C10's theorem: five consecutive failures on five matching
messages remove the subscription. -/
theorem sink_failure_threshold_witness :
    (runSub 5
        ⟨⟨0, setSubscriptionFilter "alice", setSubscriptionInvalidationFilter "alice"⟩,
          fun _ => false, 0, 0, false⟩ failMsgs).removed = true :=
  (sink_failure_threshold_removal_isolation failMsgs
    ⟨0, setSubscriptionFilter "alice", setSubscriptionInvalidationFilter "alice"⟩
    (fun _ => false) (fun _ => rfl) (by decide) []).1

end GlobalPubSub
